import Mathlib

/-!
Verification of the scheduling and recovery core of `bin_computer`.

Shallow embedding of `src/server/bin_server.py` (relative-date classifier,
selector builder, next-update scan) and `src/firmware/main.py` (device
control loop: backoff, header parsing, fail-safe sleep).

Calendar dates are modelled as natural numbers counting days, with day 0 a
Monday, so that Python `date.weekday()` (Monday=0 .. Sunday=6) becomes
`d % 7` and date subtraction `(then - now).days` becomes `thn - now`.
-/

/-- The Python exceptions the modelled server code can raise:
`DateInPastError` (src/server/bin_server.py line 58) and the built-in
`KeyError` raised by a failed dict lookup `bins[bin_colour]`. -/
inductive PyErr where
  | dateInPast
  | keyError (key : String)
  deriving DecidableEq

deriving instance DecidableEq for Except

/-- The lower-cased English weekday names produced by
`then.strftime("%A").lower()`, indexed Monday=0 .. Sunday=6. -/
def WEEKDAY_NAMES : List String :=
  ["monday", "tuesday", "wednesday", "thursday", "friday", "saturday", "sunday"]

/-- `d.strftime("%A").lower()` for a date `d` (day 0 is a Monday). -/
def weekdayName (d : Nat) : String := WEEKDAY_NAMES.getD (d % 7) ""

/-- Embedding of `relative_date` (src/server/bin_server.py lines 64-110).
Python binds `delta = (then - now).days` and later mutates it with
`delta += now.weekday()`; both bindings are inlined here as `thn - now`
and `thn - now + now % 7`. -/
def relative_date (now thn : Nat) : Except PyErr String :=
  if thn < now then .error .dateInPast
  else if thn = now then .ok "today"
  else if thn - now = 1 then .ok "tomorrow"
  else if thn - now < 7 then .ok (weekdayName thn)
  else if 7 ≤ thn - now + now % 7 ∧ thn - now + now % 7 < 14 then .ok "next week"
  else if 14 ≤ thn - now + now % 7 ∧ thn - now + now % 7 < 21 then .ok "week after next"
  else if 21 ≤ thn - now + now % 7 ∧ thn - now + now % 7 < 28 then .ok "three weeks"
  else if 28 ≤ thn - now + now % 7 ∧ thn - now + now % 7 < 35 then .ok "four weeks"
  else .ok "very long time"

/-- The label `relative_date` yields in its non-raising case (a projection of
the embedded source function, used to state theorems). -/
def rdLabel (n d : Nat) : String :=
  match relative_date n d with
  | .ok s => s
  | .error _ => ""

lemma rd_err (n d : Nat) (h : d < n) : relative_date n d = .error .dateInPast := by
  simp [relative_date, h]

lemma rd_lt_of_err (n d : Nat) (e : PyErr) (h : relative_date n d = .error e) : d < n := by
  by_contra hn
  unfold relative_date at h
  rw [if_neg hn] at h
  repeat' split at h
  all_goals exact Except.noConfusion h

lemma rd_eq (n d : Nat) :
    relative_date n d = if d < n then .error .dateInPast else .ok (rdLabel n d) := by
  by_cases h : d < n
  · rw [if_pos h]
    exact rd_err n d h
  · rw [if_neg h]
    unfold rdLabel
    cases hrd : relative_date n d with
    | ok s => rfl
    | error e => exact absurd (rd_lt_of_err n d e hrd) h

lemma rd_ok (n d : Nat) (h : ¬ d < n) : relative_date n d = .ok (rdLabel n d) := by
  rw [rd_eq, if_neg h]

/-- Python `lbl.replace(" ", "-")`: a single-character pattern replaced by a
single character is exactly a character-wise map (occurrences cannot
overlap). -/
def hyphenate (s : String) : String :=
  String.mk (s.data.map (fun c => if c = ' ' then '-' else c))

/-- The closed category set `BIN_COLOURS` (src/server/bin_server.py line 14).
The Python source stores it as a `set` and iterates over `sorted(BIN_COLOURS)`
(line 125); this list is that sorted iteration order. -/
def BIN_COLOURS : List String := ["black", "blue", "brown", "green"]

/-- An event mapping: the Python `dict[str, datetime.date]` of bin colours to
collection dates, as an association list (dict keys are unique; lookup finds
the first matching entry). -/
def PyDict : Type := List (String × Nat)

/-- The dict indexing `bins[bin_colour]`: raises `KeyError` when absent. -/
def dictGet (bins : PyDict) (k : String) : Except PyErr Nat :=
  match List.lookup k (bins : List (String × Nat)) with
  | some v => .ok v
  | none => .error (.keyError k)

/-- The selectors appended for one bin colour in one pass of the loop body
(src/server/bin_server.py lines 129-135), given the already-hyphenated
label `wh = relative_date(...).replace(" ", "-")`:
the base selector, then `.selected` when the label is `tomorrow`, then
`.open` for `tomorrow`/`today` and `.closed` otherwise. -/
def binSelectors (colour wh : String) : List String :=
  [s!".{colour}.{wh}"]
  ++ (if wh = "tomorrow" then [s!".{colour}.selected"] else [])
  ++ (if wh = "tomorrow" ∨ wh = "today" then [s!".{colour}.open"] else [s!".{colour}.closed"])

/-- The `for bin_colour in sorted(BIN_COLOURS)` loop of `ui_inkscape_actions`
(src/server/bin_server.py lines 124-135), building `enabled_selectors`.
Each pass looks the colour up in `bins` (KeyError when absent), classifies the
date (DateInPastError propagates) and appends that colour's selectors. -/
def selectorsFor (bins : PyDict) (now : Nat) : List String → Except PyErr (List String)
  | [] => .ok []
  | colour :: rest =>
    match dictGet bins colour with
    | .error e => .error e
    | .ok d =>
      match relative_date now d with
      | .error e => .error e
      | .ok lbl =>
        match selectorsFor bins now rest with
        | .error e => .error e
        | .ok out => .ok (binSelectors colour (hyphenate lbl) ++ out)

/-- The actions text assembled from the enabled selectors
(src/server/bin_server.py lines 137-145). -/
def actionsText (sels : List String) : String :=
  String.intercalate "\n"
    ["select-by-selector: .variable;",
     "selection-hide;",
     "select-by-selector:\n      " ++ String.intercalate "\n    , " sels ++ "\n    ;",
     "selection-unhide;"]

/-- Embedding of `ui_inkscape_actions` (src/server/bin_server.py lines 113-145):
the actions string for the UI state at date `now` (the `now=None` default and
the debugging `print` calls are outside the model). -/
def ui_inkscape_actions (bins : PyDict) (now : Nat) : Except PyErr String :=
  match selectorsFor bins now BIN_COLOURS with
  | .error e => .error e
  | .ok sels => .ok (actionsText sels)

/-- The selector group for one category as claim C6 words it: the base
category+label selector always, `.open` when the label is `today` or
`tomorrow` and `.closed` otherwise, and `.selected` exactly on `tomorrow`.
Stated over the hyphenated label, to be compared with `binSelectors`. -/
def specSelectorGroup (colour wh : String) : List String :=
  [s!".{colour}.{wh}"]
  ++ (if wh = "today" ∨ wh = "tomorrow" then [s!".{colour}.open"] else [s!".{colour}.closed"])
  ++ (if wh = "tomorrow" then [s!".{colour}.selected"] else [])

example : relative_date 0 0 = .ok "today" := by decide
example : relative_date 6 7 = .ok "tomorrow" := by decide
example : relative_date 5 9 = .ok "wednesday" := by decide
example : relative_date 2 9 = .ok "next week" := by decide
example : relative_date 2 14 = .ok "week after next" := by decide
example : relative_date 2 26 = .ok "three weeks" := by decide
example : relative_date 2 33 = .ok "four weeks" := by decide
example : relative_date 3 1 = .error .dateInPast := by decide

/-- Embedding of the `while True` scan of `get_next_update`
(src/server/bin_server.py lines 190-197), with an explicit iteration budget
`fuel` (an artifact of the embedding: Python's loop has no cap, so `.ok none`
means "still scanning after `fuel` candidates"). Each pass advances the
cursor one day, recomputes the actions and compares them with the baseline:
equal → continue; different → break and return the cursor; `DateInPastError`
→ the `except ... pass` falls through to `break`, returning the cursor; any
other exception (KeyError) propagates. -/
def nextUpdateScan (bins : PyDict) (actions : String) : Nat → Nat → Except PyErr (Option Nat)
  | 0, _ => .ok none
  | fuel + 1, now =>
    match ui_inkscape_actions bins (now + 1) with
    | .ok a => if actions = a then nextUpdateScan bins actions fuel (now + 1) else .ok (some (now + 1))
    | .error .dateInPast => .ok (some (now + 1))
    | .error (.keyError k) => .error (.keyError k)

/-- Embedding of `get_next_update` (src/server/bin_server.py lines 180-199):
compute the baseline actions at `now` (exceptions propagate), then scan. -/
def get_next_update (bins : PyDict) (now : Nat) (fuel : Nat) : Except PyErr (Option Nat) :=
  match ui_inkscape_actions bins now with
  | .error e => .error e
  | .ok actions => nextUpdateScan bins actions fuel now

/-- Whether a modelled Python computation completed without raising. -/
def exceptIsOk {α : Type} : Except PyErr α → Bool
  | .ok _ => true
  | .error _ => false

/-- The selector list `ui_inkscape_actions` builds when every lookup and
classification succeeds (a projection used to state lemmas). -/
def uiSelList (n db dl dr dg : Nat) : List String :=
  binSelectors "black" (hyphenate (rdLabel n db)) ++
  (binSelectors "blue" (hyphenate (rdLabel n dl)) ++
   (binSelectors "brown" (hyphenate (rdLabel n dr)) ++
    (binSelectors "green" (hyphenate (rdLabel n dg)) ++ [])))

variable {bins : PyDict} {db dl dr dg : Nat}

lemma selsFor_ok (hB : dictGet bins "black" = .ok db) (hL : dictGet bins "blue" = .ok dl)
    (hR : dictGet bins "brown" = .ok dr) (hG : dictGet bins "green" = .ok dg)
    (n : Nat) (h1 : n ≤ db) (h2 : n ≤ dl) (h3 : n ≤ dr) (h4 : n ≤ dg) :
    selectorsFor bins n BIN_COLOURS = .ok (uiSelList n db dl dr dg) := by
  have e1 : relative_date n db = .ok (rdLabel n db) := rd_ok n db (by omega)
  have e2 : relative_date n dl = .ok (rdLabel n dl) := rd_ok n dl (by omega)
  have e3 : relative_date n dr = .ok (rdLabel n dr) := rd_ok n dr (by omega)
  have e4 : relative_date n dg = .ok (rdLabel n dg) := rd_ok n dg (by omega)
  simp [BIN_COLOURS, selectorsFor, hB, hL, hR, hG, e1, e2, e3, e4, uiSelList]

lemma ui_ok (hB : dictGet bins "black" = .ok db) (hL : dictGet bins "blue" = .ok dl)
    (hR : dictGet bins "brown" = .ok dr) (hG : dictGet bins "green" = .ok dg)
    (n : Nat) (h1 : n ≤ db) (h2 : n ≤ dl) (h3 : n ≤ dr) (h4 : n ≤ dg) :
    ui_inkscape_actions bins n = .ok (actionsText (uiSelList n db dl dr dg)) := by
  rw [ui_inkscape_actions, selsFor_ok hB hL hR hG n h1 h2 h3 h4]

lemma ui_err (hB : dictGet bins "black" = .ok db) (hL : dictGet bins "blue" = .ok dl)
    (hR : dictGet bins "brown" = .ok dr) (hG : dictGet bins "green" = .ok dg)
    (n : Nat) (h : db < n ∨ dl < n ∨ dr < n ∨ dg < n) :
    ui_inkscape_actions bins n = .error .dateInPast := by
  rw [ui_inkscape_actions]
  suffices hs : selectorsFor bins n BIN_COLOURS = .error .dateInPast by rw [hs]
  by_cases c1 : db < n
  · simp [BIN_COLOURS, selectorsFor, hB, rd_err n db c1]
  · have e1 : relative_date n db = .ok (rdLabel n db) := rd_ok n db c1
    by_cases c2 : dl < n
    · simp [BIN_COLOURS, selectorsFor, hB, hL, e1, rd_err n dl c2]
    · have e2 : relative_date n dl = .ok (rdLabel n dl) := rd_ok n dl c2
      by_cases c3 : dr < n
      · simp [BIN_COLOURS, selectorsFor, hB, hL, hR, e1, e2, rd_err n dr c3]
      · have e3 : relative_date n dr = .ok (rdLabel n dr) := rd_ok n dr c3
        have c4 : dg < n := by omega
        simp [BIN_COLOURS, selectorsFor, hB, hL, hR, hG, e1, e2, e3, rd_err n dg c4]

/-- With the four colours present, the actions computation never raises
`KeyError`: it is either a selector state or `DateInPastError`. -/
lemma ui_cases (hB : dictGet bins "black" = .ok db) (hL : dictGet bins "blue" = .ok dl)
    (hR : dictGet bins "brown" = .ok dr) (hG : dictGet bins "green" = .ok dg)
    (n : Nat) :
    ui_inkscape_actions bins n = .ok (actionsText (uiSelList n db dl dr dg)) ∨
    ui_inkscape_actions bins n = .error .dateInPast := by
  by_cases h : db < n ∨ dl < n ∨ dr < n ∨ dg < n
  · exact Or.inr (ui_err hB hL hR hG n h)
  · exact Or.inl (ui_ok hB hL hR hG n (by omega) (by omega) (by omega) (by omega))

/-- The workhorse for the scan claims: starting the cursor at any `p` between
the reference date and the earliest event date `m`, `m + 1 - p` further
candidates suffice for the scan to stop, it stops at the first candidate whose
actions are not the baseline (at latest `m + 1`, where the earliest event's
date lies in the past of the cursor), and every candidate passed over had
exactly the baseline actions. -/
lemma scan_stops {bins : PyDict} {db dl dr dg : Nat}
    (hB : dictGet bins "black" = .ok db) (hL : dictGet bins "blue" = .ok dl)
    (hR : dictGet bins "brown" = .ok dr) (hG : dictGet bins "green" = .ok dg)
    (base : String) :
    ∀ fuel p, p ≤ min db (min dl (min dr dg)) → min db (min dl (min dr dg)) + 1 - p ≤ fuel →
    ∃ r, nextUpdateScan bins base fuel p = .ok (some r) ∧ p < r ∧
      r ≤ min db (min dl (min dr dg)) + 1 ∧
      (∀ c, p < c → c < r → ui_inkscape_actions bins c = .ok base) ∧
      ui_inkscape_actions bins r ≠ .ok base := by
  intro fuel
  induction fuel with
  | zero =>
    intro p hp hf
    exact absurd hf (by omega)
  | succ f ih =>
    intro p hp hf
    by_cases hd : db < p + 1 ∨ dl < p + 1 ∨ dr < p + 1 ∨ dg < p + 1
    · have he := ui_err hB hL hR hG (p + 1) hd
      refine ⟨p + 1, ?_, by omega, by omega, ?_, ?_⟩
      · simp [nextUpdateScan, he]
      · intro c hc1 hc2
        exact absurd hc2 (by omega)
      · rw [he]
        exact fun hcon => Except.noConfusion hcon
    · push_neg at hd
      obtain ⟨g1, g2, g3, g4⟩ := hd
      have ho := ui_ok hB hL hR hG (p + 1) g1 g2 g3 g4
      by_cases heq : base = actionsText (uiSelList (p + 1) db dl dr dg)
      · have hm : p + 1 ≤ min db (min dl (min dr dg)) := by omega
        obtain ⟨r, hr1, hr2, hr3, hr4, hr5⟩ := ih (p + 1) hm (by omega)
        refine ⟨r, ?_, by omega, hr3, ?_, hr5⟩
        · rw [nextUpdateScan, ho]
          dsimp only
          rw [if_pos heq]
          exact hr1
        · intro c hc1 hc2
          rcases Nat.lt_or_ge (p + 1) c with hc | hc
          · exact hr4 c hc hc2
          · have hcp : c = p + 1 := by omega
            rw [hcp, ho, heq]
      · refine ⟨p + 1, ?_, by omega, by omega, ?_, ?_⟩
        · rw [nextUpdateScan, ho]
          dsimp only
          rw [if_neg heq]
        · intro c hc1 hc2
          exact absurd hc2 (by omega)
        · rw [ho]
          intro hcon
          exact heq (Except.ok.inj hcon).symm

/-- Scanning with a larger budget finds the same first stopping candidate. -/
lemma scan_mono (bins : PyDict) (base : String) :
    ∀ f1 p r, nextUpdateScan bins base f1 p = .ok (some r) →
    ∀ f2, f1 ≤ f2 → nextUpdateScan bins base f2 p = .ok (some r) := by
  intro f1
  induction f1 with
  | zero =>
    intro p r h
    simp [nextUpdateScan] at h
  | succ f ih =>
    intro p r h f2 hf
    obtain ⟨f2', rfl⟩ : ∃ f2', f2 = f2' + 1 := ⟨f2 - 1, by omega⟩
    rw [nextUpdateScan] at h ⊢
    cases hui : ui_inkscape_actions bins (p + 1) with
    | ok a =>
      rw [hui] at h
      dsimp only at h ⊢
      by_cases heq : base = a
      · rw [if_pos heq] at h ⊢
        exact ih (p + 1) r h f2' (by omega)
      · rw [if_neg heq] at h ⊢
        exact h
    | error e =>
      rw [hui] at h
      cases e with
      | dateInPast =>
        dsimp only at h ⊢
        exact h
      | keyError k =>
        dsimp only at h
        exact Except.noConfusion h

/-- With the four colours present the scan never raises: every candidate's
actions computation is either a selector state (continue or stop) or a
`DateInPastError`, which the `except` clause absorbs. -/
lemma scan_isOk {bins : PyDict} {db dl dr dg : Nat}
    (hB : dictGet bins "black" = .ok db) (hL : dictGet bins "blue" = .ok dl)
    (hR : dictGet bins "brown" = .ok dr) (hG : dictGet bins "green" = .ok dg)
    (base : String) :
    ∀ fuel p, exceptIsOk (nextUpdateScan bins base fuel p) = true := by
  intro fuel
  induction fuel with
  | zero =>
    intro p
    rfl
  | succ f ih =>
    intro p
    rcases ui_cases hB hL hR hG (p + 1) with ho | he
    · rw [nextUpdateScan, ho]
      dsimp only
      by_cases heq : base = actionsText (uiSelList (p + 1) db dl dr dg)
      · rw [if_pos heq]
        exact ih (p + 1)
      · rw [if_neg heq]
        rfl
    · rw [nextUpdateScan, he]
      rfl

/-!
Embedding of the device control loop, `src/firmware/main.py`. The
collaborator calls of a cycle before the header scan — network connect, HTTP
fetch and status check, PNG decode, display update (lines 19-33) — are
abstracted into a single success flag; the control flow itself (the inner
try/except, the header loop with its for/else, the backoff arithmetic and the
outer try/finally fail-safe) is modelled exactly.
-/

/-- The digits of a Python int literal (no sign), or `none` when empty or
when any character is not a decimal digit. -/
def digitsToNat? (cs : List Char) : Option Nat :=
  if cs.isEmpty then none
  else cs.foldl
    (fun acc c => acc.bind (fun n => if c.isDigit then some (n * 10 + (c.toNat - 48)) else none))
    (some 0)

/-- Python `int(s)` on an already-stripped string: an optional sign followed
by at least one decimal digit, else a `ValueError` (`none`). (Python's
underscore digit separators and non-ASCII digits are not modelled; no claim
depends on them.) -/
def pyInt (s : String) : Option Int :=
  match s.data with
  | '+' :: cs => (digitsToNat? cs).map (fun n => (n : Int))
  | '-' :: cs => (digitsToNat? cs).map (fun n => -(n : Int))
  | cs => (digitsToNat? cs).map (fun n => (n : Int))

/-- Python `str.lower()` (ASCII; header keys are ASCII-decoded). -/
def lowerStr (s : String) : String := String.mk (s.data.map Char.toLower)

/-- Python `str.strip()`: drop whitespace from both ends. -/
def stripStr (s : String) : String :=
  String.mk (((s.data.dropWhile Char.isWhitespace).reverse.dropWhile Char.isWhitespace).reverse)

/-- The characters before and after the first `:`, when there is one. -/
def splitAtColon : List Char → Option (List Char × List Char)
  | [] => none
  | c :: rest =>
    if c = ':' then some ([], rest)
    else
      match splitAtColon rest with
      | none => none
      | some (k, v) => some (c :: k, v)

/-- Python `s.partition(":")` restricted to the two components the firmware
uses: the text before the first colon and the text after it (the whole string
and `""` when there is no colon). -/
def partitionColon (s : String) : String × String :=
  match splitAtColon s.data with
  | none => (s, "")
  | some (k, v) => (String.mk k, String.mk v)

/-- The header scan of src/firmware/main.py lines 35-41: the first header
line whose key, lower-cased and stripped, is `x-next-update` yields its value
(the for/else `break`); `none` models the loop's `else` branch. -/
def findNextUpdateValue : List String → Option String
  | [] => none
  | h :: rest =>
    if stripStr (lowerStr (partitionColon h).1) = "x-next-update" then some (partitionColon h).2
    else findNextUpdateValue rest

/-- One cycle's inputs: whether everything before the header scan succeeded
(connect, fetch, status 200, PNG decode, display update), and the decoded
response header lines. -/
structure CycleInput where
  fetchOk : Bool
  headers : List String
  deriving DecidableEq

/-- One pass of the `while True` body (src/firmware/main.py lines 18-62),
from backoff state `b`: yields the minutes passed to `sleep_for` and the new
backoff state. A failure anywhere in the inner `try` — including a present
but unparsable `X-Next-Update` value, whose `int()` raises after the image
was already displayed — lands in the `except` path: sleep for the current
backoff, then double it (capped at `24 * 60`). A fully successful cycle
sleeps `int(value.strip()) // 60` minutes (floor division), or `24 * 60`
when no header matched, and resets the backoff to 1. -/
def runCycle (b : Nat) (inp : CycleInput) : Int × Nat :=
  if inp.fetchOk then
    match findNextUpdateValue inp.headers with
    | none => ((24 * 60 : Int), 1)
    | some v =>
      match pyInt (stripStr v) with
      | some n => (Int.fdiv n 60, 1)
      | none => ((b : Int), min (24 * 60) (b * 2))
  else ((b : Int), min (24 * 60) (b * 2))

/-- Whether a cycle takes the success path (no exception in the inner try). -/
def cycleSucceeds (inp : CycleInput) : Bool :=
  inp.fetchOk &&
    match findNextUpdateValue inp.headers with
    | none => true
    | some v => (pyInt (stripStr v)).isSome

/-- The backoff state after a sequence of cycles starting from state `b`. -/
def backoffAfter (b : Nat) : List CycleInput → Nat
  | [] => b
  | inp :: rest => backoffAfter (runCycle b inp).2 rest

/-- `exp_backoff_minutes = 1` (src/firmware/main.py line 17). -/
def mainInitialBackoff : Nat := 1

/-- What the device does in one cycle slot: either the inner try/except
handles the cycle (ending in that cycle's sleep), or an exception escapes the
per-cycle recovery — e.g. `badger.connect()` raising outside the inner try —
which exits the `while True` loop. -/
inductive CycleRes where
  | normal (inp : CycleInput)
  | escape
  deriving DecidableEq

/-- The main program (src/firmware/main.py lines 16-66): the `try`/`finally`
around the `while True` loop, run against a schedule of cycle behaviours.
Returns the sleeps performed in order and whether the process terminated.
Processing the whole list without an escape leaves the loop still running
(`false`): normal completion does not exist. On an escape the `finally`
forces `sleep_for(24 * 60)` and then the process dies re-raising. -/
def runMain (b : Nat) : List CycleRes → List Int × Bool
  | [] => ([], false)
  | .normal inp :: rest =>
    ((runCycle b inp).1 :: (runMain (runCycle b inp).2 rest).1,
     (runMain (runCycle b inp).2 rest).2)
  | .escape :: _ => ([(24 * 60 : Int)], true)

example : findNextUpdateValue ["Content-Type: image/png", "X-Next-Update: 7200"]
    = some " 7200" := by decide
example : findNextUpdateValue ["x-NEXT-upDate :60"] = some "60" := by decide
example : findNextUpdateValue ["Content-Type: image/png"] = none := by decide
example : pyInt (stripStr " 7200") = some 7200 := by decide
example : pyInt "zzz" = none := by decide
example : pyInt "-120" = some (-120) := by decide
example : runCycle 4 ⟨true, ["X-Next-Update: 7200"]⟩ = (120, 1) := by decide
example : runCycle 4 ⟨true, ["X-Next-Update: zzz"]⟩ = (4, 8) := by decide
example : runCycle 4 ⟨false, []⟩ = (4, 8) := by decide
example : runCycle 4 ⟨true, []⟩ = (1440, 1) := by decide
example : Int.fdiv (-120) 60 = -2 := by decide

lemma runCycle_snd (b : Nat) (inp : CycleInput) :
    (runCycle b inp).2 = if cycleSucceeds inp then 1 else min (24 * 60) (b * 2) := by
  cases inp with
  | mk fOk hdrs =>
    cases fOk
    · simp [runCycle, cycleSucceeds]
    · cases hv : findNextUpdateValue hdrs with
      | none => simp [runCycle, cycleSucceeds, hv]
      | some v =>
        cases hp : pyInt (stripStr v) with
        | none => simp [runCycle, cycleSucceeds, hv, hp]
        | some n => simp [runCycle, cycleSucceeds, hv, hp]

lemma backoffAfter_append (b : Nat) (xs ys : List CycleInput) :
    backoffAfter b (xs ++ ys) = backoffAfter (backoffAfter b xs) ys := by
  induction xs generalizing b with
  | nil => rfl
  | cons x xs ih => simp [backoffAfter, ih]

/-- Doubling-with-cap, iterated over failing cycles. -/
lemma backoffAfter_fails (fails : List CycleInput)
    (h : ∀ f ∈ fails, cycleSucceeds f = false) :
    ∀ n, backoffAfter (min (24 * 60) (2 ^ n)) fails
      = min (24 * 60) (2 ^ (n + fails.length)) := by
  induction fails with
  | nil =>
    intro n
    simp [backoffAfter]
  | cons f rest ih =>
    intro n
    have hf : cycleSucceeds f = false := h f (List.mem_cons_self f rest)
    have hrest : ∀ g ∈ rest, cycleSucceeds g = false :=
      fun g hg => h g (List.mem_cons_of_mem f hg)
    have harith : min (24 * 60) ((min (24 * 60) (2 ^ n)) * 2) = min (24 * 60) (2 ^ (n + 1)) := by
      have h2 : 2 ^ (n + 1) = 2 ^ n * 2 := by rw [pow_succ]
      omega
    rw [backoffAfter, runCycle_snd, hf, if_neg (by simp), harith, ih hrest (n + 1)]
    congr 1
    simp [List.length_cons]
    omega

set_option maxHeartbeats 1000000 in
/-- Claim C1: for every pair of dates, `relative_date` raises
`DateInPastError` exactly when the target precedes the reference; otherwise
it returns `today` at delta 0, `tomorrow` at delta 1, the target's
lower-cased weekday name at deltas 2-6, and, with the delta adjusted by the
reference's Monday-based weekday index, `next week` on [7,14),
`week after next` on [14,21), `three weeks` on [21,28), `four weeks` on
[28,35) and `very long time` beyond. -/
theorem C1_relative_date_classifier (now thn : Nat) :
    (thn < now → relative_date now thn = .error .dateInPast) ∧
    (∀ e, relative_date now thn = .error e → thn < now) ∧
    (thn = now → relative_date now thn = .ok "today") ∧
    (thn = now + 1 → relative_date now thn = .ok "tomorrow") ∧
    (2 ≤ thn - now → thn - now < 7 → relative_date now thn = .ok (weekdayName thn)) ∧
    (7 ≤ thn - now →
      (7 ≤ thn - now + now % 7 → thn - now + now % 7 < 14 →
        relative_date now thn = .ok "next week") ∧
      (14 ≤ thn - now + now % 7 → thn - now + now % 7 < 21 →
        relative_date now thn = .ok "week after next") ∧
      (21 ≤ thn - now + now % 7 → thn - now + now % 7 < 28 →
        relative_date now thn = .ok "three weeks") ∧
      (28 ≤ thn - now + now % 7 → thn - now + now % 7 < 35 →
        relative_date now thn = .ok "four weeks") ∧
      (35 ≤ thn - now + now % 7 → relative_date now thn = .ok "very long time")) := by
  refine ⟨fun h => rd_err now thn h, fun e he => rd_lt_of_err now thn e he,
    fun h => ?_, fun h => ?_, fun h h2 => ?_,
    fun h => ⟨fun h2 h3 => ?_, fun h2 h3 => ?_, fun h2 h3 => ?_, fun h2 h3 => ?_,
      fun h2 => ?_⟩⟩
  all_goals unfold relative_date
  all_goals repeat' split
  all_goals first | rfl | (exfalso; omega)

/-- Witness for C1 at reference Wednesday day 2, target day 16 (adjusted
delta 16): `week after next`. -/
theorem C1_witness : relative_date 2 16 = .ok "week after next" :=
  ((C1_relative_date_classifier 2 16).2.2.2.2.2 (by decide)).2.1 (by decide) (by decide)

/-- Claim C7: the backoff starts at 1 minute, equals `min (24*60) (2^n)`
after `n` consecutive failed cycles (from the start or from any success,
whatever came before), and any successful cycle resets it to 1. -/
theorem C7_backoff_doubles_and_resets :
    mainInitialBackoff = 1 ∧
    (∀ fails : List CycleInput, (∀ f ∈ fails, cycleSucceeds f = false) →
      backoffAfter mainInitialBackoff fails = min (24 * 60) (2 ^ fails.length)) ∧
    (∀ (b : Nat) (pre : List CycleInput) (s : CycleInput) (fails : List CycleInput),
      cycleSucceeds s = true → (∀ f ∈ fails, cycleSucceeds f = false) →
      backoffAfter b (pre ++ s :: fails) = min (24 * 60) (2 ^ fails.length)) := by
  have hone : mainInitialBackoff = min (24 * 60) (2 ^ 0) := by decide
  refine ⟨rfl, fun fails hf => ?_, fun b pre s fails hs hf => ?_⟩
  · rw [hone, backoffAfter_fails fails hf 0, Nat.zero_add]
  · rw [backoffAfter_append]
    have h1 : (runCycle (backoffAfter b pre) s).2 = 1 := by
      rw [runCycle_snd, hs]
      rfl
    calc backoffAfter (backoffAfter b pre) (s :: fails)
        = backoffAfter (runCycle (backoffAfter b pre) s).2 fails := rfl
      _ = backoffAfter mainInitialBackoff fails := by rw [h1]; rfl
      _ = min (24 * 60) (2 ^ (0 + fails.length)) := by
          rw [hone, backoffAfter_fails fails hf 0]
      _ = min (24 * 60) (2 ^ fails.length) := by rw [Nat.zero_add]

/-- Witness for C7: three straight failures from the initial state leave the
backoff at `min (24*60) (2^3) = 8` minutes. -/
theorem C7_witness :
    backoffAfter mainInitialBackoff [⟨false, []⟩, ⟨false, []⟩, ⟨false, []⟩]
      = min (24 * 60) (2 ^ 3) :=
  C7_backoff_doubles_and_resets.2.1 [⟨false, []⟩, ⟨false, []⟩, ⟨false, []⟩] (by decide)

/-- Claim C8 counterexample: with a matching header whose value `zzz` cannot
be parsed, a cycle whose fetch and display succeeded does NOT sleep the
default 24 hours with the backoff reset (the claimed `(24*60, 1)`): the
`int()` call raises into the error path, so from backoff state 1 the device
sleeps 1 minute and doubles the backoff to 2. -/
theorem C8_counterexample :
    findNextUpdateValue ["X-Next-Update: zzz"] = some " zzz" ∧
    pyInt (stripStr " zzz") = none ∧
    runCycle 1 ⟨true, ["X-Next-Update: zzz"]⟩ = ((1 : Int), 2) ∧
    cycleSucceeds ⟨true, ["X-Next-Update: zzz"]⟩ = false := by decide

/-- Claim C8 amended: on a cycle whose fetch and display succeed, the hint
header is matched case-insensitively; when no header matches, the device
sleeps the default `24*60` minutes and stays on the success path (backoff
reset to 1); when a matching header's value parses as integer `n`, it sleeps
`n // 60` minutes with the backoff reset; but when the value cannot be
parsed, the cycle falls into the error/backoff path: it sleeps the current
backoff and doubles it (capped), exactly as a failed fetch would. -/
theorem C8_next_update_hint (b : Nat) (hdrs : List String) :
    (findNextUpdateValue hdrs = none →
      runCycle b ⟨true, hdrs⟩ = ((24 * 60 : Int), 1)) ∧
    (∀ v, findNextUpdateValue hdrs = some v → pyInt (stripStr v) = none →
      runCycle b ⟨true, hdrs⟩ = ((b : Int), min (24 * 60) (b * 2))) ∧
    (∀ v n, findNextUpdateValue hdrs = some v → pyInt (stripStr v) = some n →
      runCycle b ⟨true, hdrs⟩ = (Int.fdiv n 60, 1)) := by
  refine ⟨fun h => ?_, fun v hv hp => ?_, fun v n hv hp => ?_⟩
  · simp [runCycle, h]
  · simp [runCycle, hv, hp]
  · simp [runCycle, hv, hp]

/-- Witness for C8 (amended): no matching header, so the device sleeps the
24-hour default and resets the backoff. -/
theorem C8_witness :
    runCycle 7 ⟨true, ["Content-Type: image/png"]⟩ = ((24 * 60 : Int), 1) :=
  (C8_next_update_hint 7 ["Content-Type: image/png"]).1 (by decide)

/-- Claim C9: the device main loop never completes normally — it terminates
exactly when an exception escapes the per-cycle recovery — and on every such
termination the final thing the process does is the `finally` block's fixed
`sleep_for(24 * 60)`. -/
theorem C9_failsafe_sleep (b : Nat) (cycles : List CycleRes) :
    ((runMain b cycles).2 = true →
      (runMain b cycles).1.getLast? = some (24 * 60 : Int)) ∧
    ((runMain b cycles).2 = true ↔ CycleRes.escape ∈ cycles) := by
  induction cycles generalizing b with
  | nil => simp [runMain]
  | cons c rest ih =>
    cases c with
    | normal inp =>
      have ihh := ih (runCycle b inp).2
      constructor
      · intro ht
        have ht2 : (runMain (runCycle b inp).2 rest).2 = true := by
          simpa [runMain] using ht
        have hlast := ihh.1 ht2
        simp only [runMain]
        rcases hevs : (runMain (runCycle b inp).2 rest).1 with _ | ⟨e, es⟩
        · rw [hevs] at hlast
          simp at hlast
        · rw [hevs] at hlast
          rw [List.getLast?_cons_cons]
          exact hlast
      · simp only [runMain, List.mem_cons]
        constructor
        · intro ht
          exact Or.inr (ihh.2.mp ht)
        · rintro (hc | hm)
          · exact absurd hc (by simp)
          · exact ihh.2.mpr hm
    | escape =>
      constructor
      · intro h2
        simp [runMain]
      · simp [runMain]

/-- Witness for C9: a failing cycle followed by an escaping exception; the
recorded sleeps end with the forced 24-hour sleep. -/
theorem C9_witness :
    (runMain 1 [CycleRes.normal ⟨false, []⟩, CycleRes.escape]).1.getLast?
      = some (24 * 60 : Int) :=
  (C9_failsafe_sleep 1 [CycleRes.normal ⟨false, []⟩, CycleRes.escape]).1 (by decide)

/-- Event mapping with every bin collected on the reference date itself. -/
def binsToday : PyDict := [("black", 0), ("blue", 0), ("brown", 0), ("green", 0)]

/-- Event mapping with the black bin on day 0 and the rest on day 3. -/
def binsMixed : PyDict := [("black", 0), ("blue", 3), ("brown", 3), ("green", 3)]

/-- Event mapping with every bin 100 days out. -/
def binsFar : PyDict := [("black", 100), ("blue", 100), ("brown", 100), ("green", 100)]

/-- Event mapping with every bin on day 5. -/
def binsFour : PyDict := [("black", 5), ("blue", 5), ("brown", 5), ("green", 5)]

/-- `binsFour` plus an extra fifth category. -/
def binsExtra : PyDict :=
  [("black", 5), ("blue", 5), ("brown", 5), ("green", 5), ("purple", 5)]

/-- Event mapping with every bin on day 9. -/
def binsWeek : PyDict := [("black", 9), ("blue", 9), ("brown", 9), ("green", 9)]

/-- Mixed event mapping used to exercise the selector builder. -/
def binsSpread : PyDict := [("black", 1), ("blue", 9), ("brown", 2), ("green", 30)]

/-- Whether the actions at the first `k` candidate dates after `n0` all equal
the actions at `n0` (used to state the C4 counterexample without binders). -/
def allSameUpTo (bins : PyDict) (n0 k : Nat) : Bool :=
  (List.range k).all
    (fun i => decide (ui_inkscape_actions bins (n0 + i + 1) = ui_inkscape_actions bins n0))

/-- Claim C3 counterexample: with the black bin due on the reference date
itself, the very first candidate raises `DateInPastError` inside the scan —
and the scan does not keep scanning later candidates: it stops there and
returns that candidate (day 1). -/
theorem C3_counterexample :
    ui_inkscape_actions binsMixed 1 = .error .dateInPast ∧
    get_next_update binsMixed 0 10 = .ok (some 1) := by decide

/-- Claim C3 amended: when the selector computation for the next candidate
raises `DateInPastError`, the scan neither propagates the error nor keeps
scanning: the `except DateInPastError: pass` falls through to `break`, so the
scan stops and returns that candidate. -/
theorem C3_scan_stops_on_dateinpast (bins : PyDict) (base : String) (fuel now : Nat)
    (h : ui_inkscape_actions bins (now + 1) = .error .dateInPast) :
    nextUpdateScan bins base (fuel + 1) now = .ok (some (now + 1)) := by
  rw [nextUpdateScan, h]

/-- Witness for C3 (amended) on `binsMixed` at day 0. -/
theorem C3_witness : nextUpdateScan binsMixed "x" 1 0 = .ok (some 1) :=
  C3_scan_stops_on_dateinpast binsMixed "x" 0 0 (by decide)

set_option maxHeartbeats 4000000 in
set_option maxRecDepth 10000 in
/-- Claim C4 counterexample: with every bin 100 days out, none of the first
60 candidates differs from the baseline, yet the scan does not fail — it
keeps scanning and returns day 70 (where `very long time` first ticks over
to `four weeks`). -/
theorem C4_counterexample :
    allSameUpTo binsFar 0 60 = true ∧
    get_next_update binsFar 0 200 = .ok (some 70) := by decide

/-- Claim C4 amended: the scan has no 60-day cap and no
`SchedulingAnomalyError` (no such exception exists in the code): with the
four categories present it never fails for any budget — every candidate
either matches the baseline (continue), differs (return), or raises
`DateInPastError` (absorbed, return). -/
theorem C4_scan_never_fails (bins : PyDict) (db dl dr dg : Nat)
    (hB : dictGet bins "black" = .ok db) (hL : dictGet bins "blue" = .ok dl)
    (hR : dictGet bins "brown" = .ok dr) (hG : dictGet bins "green" = .ok dg)
    (base : String) (fuel p : Nat) :
    exceptIsOk (nextUpdateScan bins base fuel p) = true :=
  scan_isOk hB hL hR hG base fuel p

/-- Witness for C4 (amended) on `binsFour`. -/
theorem C4_witness : exceptIsOk (nextUpdateScan binsFour "x" 9 0) = true :=
  C4_scan_never_fails binsFour 5 5 5 5 (by decide) (by decide) (by decide) (by decide)
    "x" 9 0

/-- Claim C5 counterexample: an event mapping with an extra fifth category
(`purple`) is not rejected: the selector builder silently ignores it and
produces a selector set. -/
theorem C5_counterexample :
    List.lookup "purple" (binsExtra : List (String × Nat)) = some 5 ∧
    exceptIsOk (ui_inkscape_actions binsExtra 0) = true := by decide

/-- Claim C5 amended: the selector builder performs no key-set validation
and the code defines no `InvalidEventSetError`: its result depends only on
the lookups of the four known categories, so extra categories are silently
ignored and a selector set is produced; a mapping lacking a category fails
with a plain `KeyError` when that category is looked up (shown for `black`,
the first colour in iteration order). The exact-key-set check lives upstream
in the scraper `get_bin_collection_dates`, not in the selector builder. -/
theorem C5_no_keyset_validation :
    (∀ (bins bins' : PyDict) (now : Nat),
      (∀ c ∈ BIN_COLOURS,
        List.lookup c (bins : List (String × Nat))
          = List.lookup c (bins' : List (String × Nat))) →
      ui_inkscape_actions bins now = ui_inkscape_actions bins' now) ∧
    (∀ (bins : PyDict) (now : Nat),
      List.lookup "black" (bins : List (String × Nat)) = none →
      ui_inkscape_actions bins now = .error (.keyError "black")) := by
  constructor
  · intro bins bins' now h
    have hsels : ∀ cs : List String,
        (∀ c ∈ cs, List.lookup c (bins : List (String × Nat))
          = List.lookup c (bins' : List (String × Nat))) →
        selectorsFor bins now cs = selectorsFor bins' now cs := by
      intro cs
      induction cs with
      | nil => intro _; rfl
      | cons c rest ih =>
        intro hcs
        have hc : dictGet bins c = dictGet bins' c := by
          unfold dictGet
          rw [hcs c (List.mem_cons_self c rest)]
        simp only [selectorsFor, hc, ih (fun x hx => hcs x (List.mem_cons_of_mem c hx))]
    unfold ui_inkscape_actions
    rw [hsels BIN_COLOURS h]
  · intro bins now h
    have hb : dictGet bins "black" = .error (.keyError "black") := by
      unfold dictGet
      rw [h]
    simp [ui_inkscape_actions, BIN_COLOURS, selectorsFor, hb]

/-- Witness for C5 (amended): the extra `purple` entry does not change the
result. -/
theorem C5_witness : ui_inkscape_actions binsExtra 0 = ui_inkscape_actions binsFour 0 :=
  C5_no_keyset_validation.1 binsExtra binsFour 0 (by decide)

/-- Python's `<` on strings: code-point lexicographic comparison. -/
def lexLt : List Char → List Char → Bool
  | [], [] => false
  | [], _ :: _ => true
  | _ :: _, [] => false
  | a :: as, b :: bs =>
    if a.toNat < b.toNat then true
    else if b.toNat < a.toNat then false
    else lexLt as bs

/-- `a < b` for Python strings. -/
def strLexLt (a b : String) : Bool := lexLt a.data b.data

/-- Each adjacent pair of the list is strictly increasing in Python's string
order (what `sorted` guarantees for distinct keys). -/
def sortedStrict : List String → Bool
  | [] => true
  | [_] => true
  | a :: b :: rest => strLexLt a b && sortedStrict (b :: rest)

/-- Each code-side selector group contains exactly the selectors the spec
describes for its label: base always, open on today/tomorrow else closed,
selected exactly on tomorrow (the two orders differ, so as a permutation). -/
lemma binSelectors_perm (colour wh : String) :
    (binSelectors colour wh).Perm (specSelectorGroup colour wh) := by
  unfold binSelectors specSelectorGroup
  split_ifs
  all_goals first
    | exact List.Perm.refl _
    | exact List.Perm.cons _ (List.Perm.swap _ _ _)
    | tauto

/-- Claim C6: with the four categories present and no event date before the
reference date, the selector builder emits one selector group per category,
concatenated in the lexicographic category order black, blue, brown, green,
and each group consists (as a set) of the base category+label selector, an
`open` selector when the label is today or tomorrow and a `closed` selector
otherwise, and a `selected` selector exactly when the label is tomorrow. -/
theorem C6_selector_groups (bins : PyDict) (now db dl dr dg : Nat)
    (hB : dictGet bins "black" = .ok db) (hL : dictGet bins "blue" = .ok dl)
    (hR : dictGet bins "brown" = .ok dr) (hG : dictGet bins "green" = .ok dg)
    (h1 : now ≤ db) (h2 : now ≤ dl) (h3 : now ≤ dr) (h4 : now ≤ dg) :
    selectorsFor bins now BIN_COLOURS = .ok (uiSelList now db dl dr dg) ∧
    sortedStrict BIN_COLOURS = true ∧
    (∀ colour wh, (binSelectors colour wh).Perm (specSelectorGroup colour wh)) := by
  refine ⟨selsFor_ok hB hL hR hG now h1 h2 h3 h4, by decide, binSelectors_perm⟩

/-- Witness for C6 on a concrete mapping (black tomorrow, blue next week,
brown in two days, green four weeks out). -/
theorem C6_witness :
    selectorsFor binsSpread 0 BIN_COLOURS = .ok (uiSelList 0 1 9 2 30) :=
  (C6_selector_groups binsSpread 0 1 9 2 30 (by decide) (by decide) (by decide)
    (by decide) (by decide) (by decide) (by decide) (by decide)).1

/-- Claim C2 counterexample: with every bin due on the reference date (all
dates ≥ reference, as the claim requires), the scan returns day 1, but there
is no selector set at day 1 at all — computing it raises `DateInPastError` —
so "the selector set at the returned date differs from the baseline" fails:
nothing is produced there. -/
theorem C2_counterexample :
    get_next_update binsToday 0 60 = .ok (some 1) ∧
    ui_inkscape_actions binsToday 1 = .error .dateInPast := by decide

/-- Claim C2 amended: with the four categories present and all event dates
on or after the reference date, the scan (given its natural budget) returns
a date strictly after the reference date at which the actions computation
either yields a selector state different from the baseline or raises
`DateInPastError` (an event date just passed), while at every date strictly
between, the selector state is identical to the baseline. -/
theorem C2_next_change (bins : PyDict) (db dl dr dg n0 : Nat)
    (hB : dictGet bins "black" = .ok db) (hL : dictGet bins "blue" = .ok dl)
    (hR : dictGet bins "brown" = .ok dr) (hG : dictGet bins "green" = .ok dg)
    (h1 : n0 ≤ db) (h2 : n0 ≤ dl) (h3 : n0 ≤ dr) (h4 : n0 ≤ dg) :
    ∃ r, get_next_update bins n0 (min db (min dl (min dr dg)) + 1 - n0) = .ok (some r) ∧
      n0 < r ∧
      (∀ c, n0 < c → c < r → ui_inkscape_actions bins c = ui_inkscape_actions bins n0) ∧
      ui_inkscape_actions bins r ≠ ui_inkscape_actions bins n0 ∧
      (ui_inkscape_actions bins r = .error .dateInPast ∨
        ∃ s, ui_inkscape_actions bins r = .ok s) := by
  have hbase := ui_ok hB hL hR hG n0 h1 h2 h3 h4
  obtain ⟨r, hs1, hs2, hs3, hs4, hs5⟩ :=
    scan_stops hB hL hR hG (actionsText (uiSelList n0 db dl dr dg))
      (min db (min dl (min dr dg)) + 1 - n0) n0 (by omega) (by omega)
  refine ⟨r, ?_, hs2, ?_, ?_, ?_⟩
  · rw [get_next_update, hbase]
    exact hs1
  · intro c hc1 hc2
    rw [hs4 c hc1 hc2, hbase]
  · rw [hbase]
    exact hs5
  · rcases ui_cases hB hL hR hG r with ho | he
    · exact Or.inr ⟨_, ho⟩
    · exact Or.inl he

/-- Witness for C2 (amended): every bin on day 9, reference day 2
(baseline `next week`); the first differing candidate is day 3
(`wednesday`). -/
theorem C2_witness : get_next_update binsWeek 2 8 = .ok (some 3) := by
  obtain ⟨r, hr, -, -, -⟩ :=
    C2_next_change binsWeek 9 9 9 9 2 (by decide) (by decide) (by decide) (by decide)
      (by decide) (by decide) (by decide) (by decide)
  exact (by decide : get_next_update binsWeek 2 8 = .ok (some 3))

/-- Claim C10: with the four categories present and all event dates on or
after the reference date, the scan terminates without any iteration cap —
every budget of at least `m + 1 - reference` candidates (where `m` is the
earliest event date) yields the same returned date — the returned date is at
most one day after `m`, and it is the first candidate whose actions differ
from the baseline or whose computation raises, every earlier candidate being
identical to the baseline. -/
theorem C10_scan_termination_bound (bins : PyDict) (db dl dr dg n0 : Nat)
    (hB : dictGet bins "black" = .ok db) (hL : dictGet bins "blue" = .ok dl)
    (hR : dictGet bins "brown" = .ok dr) (hG : dictGet bins "green" = .ok dg)
    (h1 : n0 ≤ db) (h2 : n0 ≤ dl) (h3 : n0 ≤ dr) (h4 : n0 ≤ dg) :
    ∃ r, n0 < r ∧ r ≤ min db (min dl (min dr dg)) + 1 ∧
      (∀ fuel, min db (min dl (min dr dg)) + 1 - n0 ≤ fuel →
        get_next_update bins n0 fuel = .ok (some r)) ∧
      ui_inkscape_actions bins r ≠ ui_inkscape_actions bins n0 ∧
      (∀ c, n0 < c → c < r → ui_inkscape_actions bins c = ui_inkscape_actions bins n0) := by
  have hbase := ui_ok hB hL hR hG n0 h1 h2 h3 h4
  obtain ⟨r, hs1, hs2, hs3, hs4, hs5⟩ :=
    scan_stops hB hL hR hG (actionsText (uiSelList n0 db dl dr dg))
      (min db (min dl (min dr dg)) + 1 - n0) n0 (by omega) (by omega)
  refine ⟨r, hs2, hs3, fun fuel hfuel => ?_, ?_, fun c hc1 hc2 => ?_⟩
  · rw [get_next_update, hbase]
    exact scan_mono bins (actionsText (uiSelList n0 db dl dr dg))
      (min db (min dl (min dr dg)) + 1 - n0) n0 r hs1 fuel hfuel
  · rw [hbase]
    exact hs5
  · rw [hs4 c hc1 hc2, hbase]

set_option maxRecDepth 10000 in
/-- Witness for C10: every bin on day 5, reference day 0 (baseline
`saturday`); the scan stops at day 4 (`tomorrow`), one day before the
earliest event date plus one. -/
theorem C10_witness : get_next_update binsFour 0 6 = .ok (some 4) := by
  obtain ⟨r, -, -, hfuel, -, -⟩ :=
    C10_scan_termination_bound binsFour 5 5 5 5 0 (by decide) (by decide) (by decide)
      (by decide) (by decide) (by decide) (by decide) (by decide)
  exact (by decide : get_next_update binsFour 0 6 = .ok (some 4))
